import Mathlib

/-!
Verification of the haumaru backup engine specification against a shallow
embedding of its Rust source (api/src). Each section embeds the data model
and operations of one component: nodes (node.rs), the change-resolution
decision of the engine (engine/mod.rs, engine/engine.rs), the SQLite index
with its backup-set staging (index/sql_light_index.rs, index/backup_set.rs),
the bounded queue (queue.rs), the run loop (engine/engine.rs), and restore
with the local and remote stores (storage/local_storage.rs,
storage/s3_storage.rs). Theorems follow the definitions.
-/

namespace Haumaru

/-- Node kind, from `node.rs` (`NodeKind`). -/
inductive NodeKind where
  | file
  | dir
deriving DecidableEq, Repr

/-- A node revision, from `node.rs` (`Node`). `mtime` is the seconds field of
the `Timespec` (the nanosecond field is zero everywhere the engine builds
one); `hash` is a byte list; `backupSet` mirrors `Option<u64>`. -/
structure Node where
  path : String
  kind : NodeKind
  mtime : Int
  size : Nat
  mode : Nat
  deleted : Bool
  hash : Option (List Nat)
  backupSet : Option Nat
deriving DecidableEq, Repr

/-- `Node::new_file`. -/
def Node.newFile (path : String) (mtime : Int) (size : Nat) (mode : Nat) : Node :=
  { path := path, kind := .file, mtime := mtime, size := size, mode := mode,
    deleted := false, hash := none, backupSet := none }

/-- `Node::new_dir` (size is fixed to 0). -/
def Node.newDir (path : String) (mtime : Int) (mode : Nat) : Node :=
  { path := path, kind := .dir, mtime := mtime, size := 0, mode := mode,
    deleted := false, hash := none, backupSet := none }

/-- `Node::is_file`. -/
def Node.isFile (n : Node) : Bool := n.kind == .file

/-- `Node::is_dir`. -/
def Node.isDir (n : Node) : Bool := n.kind == .dir

/-- `Node::has_hash`. -/
def Node.hasHash (n : Node) : Bool := n.hash.isSome

/-- `Node::as_deleted`: sets the tombstone flag, zeroes size and mode, stamps
the current time and drops the hash. `now` is the clock value `now()` read
inside the Rust function. -/
def Node.asDeleted (n : Node) (now : Int) : Node :=
  { n with deleted := true, size := 0, mode := 0, mtime := now, hash := none }

/-- `Node::with_backup_set`. -/
def Node.withBackupSet (n : Node) (backupSet : Nat) : Node :=
  { n with backupSet := some backupSet }

/-- `Node::validate`, from `node.rs` lines 117-140, as a Boolean: `true`
exactly when the Rust function returns without panicking. The panics are:
a present hash whose length is not 32; a non-deleted file without hash; a
deleted file with hash; a deleted file with non-zero mode; a dir with hash;
a dir with non-zero size; a missing backup set. -/
def Node.validate (n : Node) : Bool :=
  (match n.hash with
   | some h => h.length == 32
   | none => true) &&
  (match n.kind with
   | .file =>
     !(!n.deleted && n.hash.isNone) &&
     !(n.deleted && n.hash.isSome) &&
     !(n.deleted && n.mode != 0)
   | .dir => n.hash.isNone && n.size == 0) &&
  n.backupSet.isSome

/-! ## Change resolution (`process_change`, engine/mod.rs lines 260-345 and
engine/engine.rs lines 100-185; both copies implement the same decision). -/

/-- The effect `process_change` has on the pipeline/index for one change:
do nothing, insert a node straight into the index (tombstones and dirs), or
push a file node onto the `pre_send` queue. -/
inductive PCAction where
  | none
  | insertNode (n : Node)
  | enqueueFile (n : Node)
deriving DecidableEq, Repr

/-- `DefaultEngine::queue_for_send`: files go to the pre-send queue, anything
else is inserted directly into the index. -/
def queueForSend (n : Node) : PCAction :=
  if n.isFile then .enqueueFile n else .insertNode n

/-- `is_excluded` from engine/mod.rs lines 474-485: the change path starts
with an exclude entry, or equals the base path. -/
def isExcluded (excludes : List String) (changePath : String) (basePath : String) : Bool :=
  excludes.any (fun e => changePath.startsWith e) || changePath == basePath

/-- The core decision of `process_change`, given the revision already in the
index for the change's key (`existing`, the result of `index.get(key, None)`)
and the live filesystem state (`current`, the result of
`backup_path.get_file`). `maxFileSize` is `config.max_file_size()`; `now` is
the clock read by `as_deleted`; `backupSet` is the open set id. -/
def processChange (maxFileSize : Option Nat) (now : Int) (backupSet : Nat)
    (existing : Option Node) (current : Option Node) : PCAction :=
  match current with
  | Option.none =>
    match existing with
    | Option.none => .none
    | some e => .insertNode ((e.asDeleted now).withBackupSet backupSet)
  | some n =>
    if (match maxFileSize with
        | some m => decide (n.size > m)
        | Option.none => false) = true then
      .none
    else
      match existing with
      | Option.none => queueForSend (n.withBackupSet backupSet)
      | some e =>
        if e.isDir && n.isDir then .none
        else if n.size == e.size && n.mtime == e.mtime then .none
        else queueForSend (n.withBackupSet backupSet)

/-- `process_change` including its leading exclusion check on the change's
absolute path. -/
def processChangeFull (excludes : List String) (basePath : String) (changePath : String)
    (maxFileSize : Option Nat) (now : Int) (backupSet : Nat)
    (existing : Option Node) (current : Option Node) : PCAction :=
  if isExcluded excludes changePath basePath then .none
  else processChange maxFileSize now backupSet existing current

/-! ## The SQLite index (`index/sql_light_index.rs`) and the backup-set
staging buffer (`index/backup_set.rs`). -/

/-- A row of the `node` table. `size` is the nullable BIGINT column: `persist`
stores `Some(size)` for files and `None` for dirs. -/
structure NodeRow where
  id : Nat
  backupSetId : Nat
  parentId : Nat
  pathId : Nat
  kind : NodeKind
  mtime : Int
  size : Option Nat
  mode : Nat
  deleted : Bool
  hash : Option (List Nat)
deriving DecidableEq, Repr

/-- The database: the `path`, `node` and `backup_set` tables, plus the next
auto-increment rowid of each (SQLite INTEGER PRIMARY KEY). -/
structure SqlDb where
  paths : List (Nat × String)
  nodes : List NodeRow
  backupSets : List (Nat × Int)
  nextPathId : Nat
  nextNodeId : Nat
  nextBackupSetId : Nat
deriving DecidableEq, Repr

/-- The in-memory staging buffer of one open backup set (`BackupSet` in
backup_set.rs): its id and the nodes inserted while it is open. -/
structure BackupSet where
  index : Nat
  inMemory : List Node
deriving DecidableEq, Repr

/-- `SqlLightIndex` state: the database plus the `BackupSetController`
(`current: Option<BackupSet>`). -/
structure IndexState where
  db : SqlDb
  controller : Option BackupSet
deriving DecidableEq, Repr

/-- Split a character list on a separator (helper for `parentString`). -/
def splitChars (sep : Char) : List Char → List (List Char)
  | [] => [[]]
  | c :: rest =>
    match splitChars sep rest with
    | [] => [[]]
    | g :: gs => if c == sep then [] :: g :: gs else (c :: g) :: gs

/-- Join components with `/` (helper for `parentString`). -/
def joinWithSlash : List (List Char) → List Char
  | [] => []
  | [g] => g
  | g :: g2 :: gs => g ++ '/' :: joinWithSlash (g2 :: gs)

/-- `Path::parent` on a backup key: `None` for the empty string, otherwise
the string up to the last `/` (empty for a top-level key). -/
def parentString (s : String) : Option String :=
  if s == "" then Option.none
  else some (String.mk (joinWithSlash ((splitChars '/' s.data).dropLast)))

/-- `SqlLightIndex::get_path_id`: look the string up in the `path` table,
inserting a fresh row when absent; returns the id and the possibly-grown
database. -/
def getPathId (db : SqlDb) (s : String) : Nat × SqlDb :=
  match db.paths.find? (fun pr => pr.2 == s) with
  | some pr => (pr.1, db)
  | Option.none =>
    (db.nextPathId,
     { db with paths := db.paths ++ [(db.nextPathId, s)],
               nextPathId := db.nextPathId + 1 })

/-- `SqlLightIndex::persist` (sql_light_index.rs lines 299-376): validate the
node (a violation panics in Rust; modelled as an error outcome, in either
case no further node is written), re-check the file/hash conditions, resolve
the node's and its parent's path ids (inserting `path` rows as needed), then
execute the `INSERT INTO node` statement. `insertFails` is the environment
oracle for a database failure of that final insert; on failure the path rows
already created remain, exactly as in SQLite without a wrapping
transaction. -/
def persist (insertFails : Node → Bool) (db : SqlDb) (n : Node) : SqlDb × Option String :=
  if !n.validate then (db, some "validate panic")
  else if n.isFile && !n.hasHash && !n.deleted then (db, some "File node missing hash")
  else if n.isFile && n.deleted && n.hasHash then (db, some "Deleted file can not have hash")
  else if n.isFile && !n.deleted && n.hash == some [] then (db, some "File node hash is empty")
  else
    match parentString n.path with
    | Option.none => (db, some "Unable to get parent path")
    | some parentPath =>
      let pr := getPathId db n.path
      let qr := getPathId pr.2 parentPath
      if insertFails n then (qr.2, some "Insert node query failed")
      else
        let row : NodeRow :=
          { id := qr.2.nextNodeId,
            backupSetId := n.backupSet.getD 0,
            parentId := qr.1,
            pathId := pr.1,
            kind := n.kind,
            mtime := n.mtime,
            size := match n.kind with
                    | .file => some n.size
                    | .dir => Option.none,
            mode := n.mode,
            deleted := n.deleted,
            hash := n.hash }
        ({ qr.2 with nodes := qr.2.nodes ++ [row], nextNodeId := qr.2.nextNodeId + 1 },
         Option.none)

/-- Persist a list of staged nodes in order, stopping at the first failure
(the `?` inside the `close_backup_set` loop). -/
def persistList (insertFails : Node → Bool) (db : SqlDb) : List Node → SqlDb × Option String
  | [] => (db, Option.none)
  | n :: rest =>
    match persist insertFails db n with
    | (db', Option.none) => persistList insertFails db' rest
    | (db', some e) => (db', some e)

/-- `SqlLightIndex::create_backup_set`: append a `backup_set` row, then
`BackupSetController::open`, which panics with "backup set already open"
when a set is open (modelled as the error value; note the database row is
appended before the check, as in the source). -/
def createBackupSet (st : IndexState) (ts : Int) : IndexState × Except String Nat :=
  let idx := st.db.nextBackupSetId
  let db' := { st.db with backupSets := st.db.backupSets ++ [(idx, ts)],
                          nextBackupSetId := idx + 1 }
  match st.controller with
  | some _ => ({ st with db := db' }, .error "backup set already open")
  | Option.none =>
    ({ db := db', controller := some { index := idx, inMemory := [] } }, .ok idx)

/-- `SqlLightIndex::insert`: stage the node into the open backup set; the
`expect!` panics when no set is open (modelled as the error value). -/
def indexInsert (st : IndexState) (n : Node) : IndexState × Option String :=
  match st.controller with
  | Option.none => (st, some "backup set")
  | some bs =>
    ({ st with controller := some { bs with inMemory := bs.inMemory ++ [n] } },
     Option.none)

/-- `SqlLightIndex::close_backup_set` (lines 477-493): `flush` takes the
buffer out of the controller (panicking when none is open), then persists
each staged node in order; a failing persist aborts the loop via `?`,
leaving the nodes already persisted in the database and dropping the rest
with the flushed buffer. -/
def closeBackupSet (insertFails : Node → Bool) (st : IndexState) : IndexState × Option String :=
  match st.controller with
  | Option.none => (st, some "no backup set open")
  | some bs =>
    let r := persistList insertFails st.db bs.inMemory
    ({ db := r.1, controller := Option.none }, r.2)

/-! ## Query model (the SQL of sql_light_index.rs lines 117-169). -/

/-- The `INNER JOIN path ON path.id = node.path_id` projection: the node
row's own path string. -/
def pathStrOf (db : SqlDb) (r : NodeRow) : Option String :=
  (db.paths.find? (fun pr => pr.1 == r.pathId)).map (fun pr => pr.2)

/-- The parent path string of a node row (`JOIN path as parent_path ON
node.parent_id = parent_path.id`). -/
def parentStrOf (db : SqlDb) (r : NodeRow) : Option String :=
  (db.paths.find? (fun pr => pr.1 == r.parentId)).map (fun pr => pr.2)

/-- The `at` of the row's owning backup set (`INNER JOIN backup_set ON
node.backup_set_id = backup_set.id`). -/
def setAtOf (db : SqlDb) (r : NodeRow) : Option Int :=
  (db.backupSets.find? (fun b => b.1 == r.backupSetId)).map (fun b => b.2)

/-- `ORDER BY node.id DESC LIMIT 1`: the row with the largest id. -/
def maxIdRow : List NodeRow → Option NodeRow
  | [] => Option.none
  | r :: rs =>
    match maxIdRow rs with
    | Option.none => some r
    | some m => if m.id < r.id then some r else some m

/-- Rows matched by `GET_LATEST_QUERY_SQL` before the order/limit: node rows
joined to a path row whose string is `p`. -/
def latestRows (db : SqlDb) (p : String) : List NodeRow :=
  db.nodes.filter (fun r => pathStrOf db r == some p)

/-- Rows matched by `GET_FROM_QUERY_SQL` before the order/limit: additionally
joined to a backup_set row with `at ≤ t`. -/
def fromRows (db : SqlDb) (p : String) (t : Int) : List NodeRow :=
  db.nodes.filter (fun r =>
    pathStrOf db r == some p &&
    (match setAtOf db r with
     | some a => decide (a ≤ t)
     | Option.none => false))

/-- `SqlLightIndex::get` (lines 442-459): `GET_LATEST_QUERY_SQL` when `from`
is absent, `GET_FROM_QUERY_SQL` when given. -/
def SqlLightIndex.get (db : SqlDb) (p : String) : Option Int → Option NodeRow
  | Option.none => maxIdRow (latestRows db p)
  | some t => maxIdRow (fromRows db p t)

/-- The direct-child rows of parent `p`: the subquery's
`node INNER JOIN path as parent_path ON node.parent_id = parent_path.id
WHERE parent_path.path = ?`. -/
def childRows (db : SqlDb) (p : String) : List NodeRow :=
  db.nodes.filter (fun r => parentStrOf db r == some p)

/-- `SELECT MAX(node.id) ... GROUP BY path_id` over the direct children of
`p`: one maximal node id per distinct child `path_id`. -/
def subqueryMaxIds (db : SqlDb) (p : String) : List Nat :=
  (((childRows db p).map (fun r => r.pathId)).dedup).filterMap (fun pid =>
    (maxIdRow ((childRows db p).filter (fun r => r.pathId == pid))).map (fun r => r.id))

/-- Insertion into a list kept sorted by the row's path string
(`ORDER BY path.path ASC`). -/
def insertByPath (db : SqlDb) (r : NodeRow) : List NodeRow → List NodeRow
  | [] => [r]
  | x :: xs =>
    if (pathStrOf db r).getD "" < (pathStrOf db x).getD "" then r :: x :: xs
    else x :: insertByPath db r xs

/-- Sort rows by path string ascending. -/
def sortByPath (db : SqlDb) (rows : List NodeRow) : List NodeRow :=
  rows.foldl (fun acc r => insertByPath db r acc) []

/-- `LIST_FROM_QUERY_SQL` (lines 153-169). The subquery's FROM clause is
`node INNER JOIN path as parent_path`; `backup_set` is not among its tables,
so the reference `backup_set.at <= ?` in the subquery's WHERE resolves to the
OUTER query's `backup_set` join, i.e. to the backup set of the candidate
outer row. An outer row `r` therefore passes iff its own set has `at ≤ t`
and `r.id` is in the set of per-child unfiltered maximal ids. -/
def SqlLightIndex.listFrom (db : SqlDb) (p : String) (t : Int) : List NodeRow :=
  sortByPath db (db.nodes.filter (fun r =>
    (pathStrOf db r).isSome &&
    (match setAtOf db r with
     | some a => decide (a ≤ t) && (subqueryMaxIds db p).contains r.id
     | Option.none => false)))

/-! ## The bounded queue (`queue.rs`). -/

/-- The mutex-guarded state of a queue: the FIFO and the in-progress
counter (`QueueState` in queue.rs). -/
structure QueueState (T : Type) where
  q : List T
  inProgress : Nat

/-- A popped item: the held value and the success flag (`QueueItem`). -/
structure QueueItem (T : Type) where
  t : Option T
  success : Bool

/-- `Queue::pop` on a non-empty queue: remove the front, increment
`in_progress`, and hand out a `QueueItem` holding the value with the success
flag clear. On an empty queue the Rust call blocks; the model returns
`none`. -/
def Queue.pop {T : Type} (s : QueueState T) : Option (QueueItem T × QueueState T) :=
  match s.q with
  | [] => Option.none
  | x :: rest =>
    some ({ t := some x, success := false }, { q := rest, inProgress := s.inProgress + 1 })

/-- `QueueItem::success`: set the flag and take the value out. -/
def QueueItem.markSuccess {T : Type} (it : QueueItem T) : Option T × QueueItem T :=
  (it.t, { t := Option.none, success := true })

/-- `impl Drop for QueueItem` (queue.rs lines 161-179): decrement
`in_progress`; when the success flag is clear and the value is still held,
push it to the back of the queue. -/
def QueueItem.dropItem {T : Type} (it : QueueItem T) (s : QueueState T) : QueueState T :=
  let s' : QueueState T := { s with inProgress := s.inProgress - 1 }
  if it.success then s'
  else
    match it.t with
    | some v => { s' with q := s'.q ++ [v] }
    | Option.none => s'

/-- `Queue::len`: `in_progress + queue length`. -/
def Queue.len {T : Type} (s : QueueState T) : Nat :=
  s.inProgress + s.q.length

/-! ## The run loop (`Engine::run`, engine/engine.rs lines 23-98), abstracted
to the sequence of backup-set and queue operations it performs. -/

/-- One observable operation of the run loop. -/
inductive EngOp where
  | openSet (ts : Int)
  | handleChange (path : String)
  | waitPreSend
  | waitSend
  | waitSent
  | closeSet
deriving DecidableEq, Repr

/-- `wait_for_queue_drain` (engine/mod.rs lines 165-180): wait on the
pre-send, send and sent queues in that order. -/
def waitForQueueDrainOps : List EngOp :=
  [.waitPreSend, .waitSend, .waitSent]

/-- `scan` (engine/mod.rs lines 182-258) as operations: process a change per
entry, then `wait_for_queue_drain`. -/
def scanOps (entries : List String) : List EngOp :=
  entries.map .handleChange ++ waitForQueueDrainOps

/-- One iteration of the period loop of `run`: drain the watcher changes;
when non-empty, `create_backup_set` and process each change; in every case
`wait_for_queue_drain`. No other operation occurs: in particular the loop
body never calls `close_backup_set`. -/
def tickOps (ts : Int) (changes : List String) : List EngOp :=
  (if changes.length > 0 then EngOp.openSet ts :: changes.map .handleChange else []) ++
  waitForQueueDrainOps

/-- `Engine::run` as operations: the initial pass (`create_backup_set` at
`now`, then `scan`, with no close), followed by one `tickOps` block per
period tick. -/
def engineRunOps (now : Int) (scanEntries : List String)
    (ticks : List (Int × List String)) : List EngOp :=
  (EngOp.openSet now :: scanOps scanEntries) ++
  ticks.flatMap (fun tk => tickOps tk.1 tk.2)

/-- Execute the backup-set effect of an operation sequence against the
`BackupSetController`: `openSet` panics with "backup set already open" when
a set is open (`BackupSetController::open`), `closeSet` closes it, queue
and change operations leave it unchanged. The state is whether a set is
open. -/
def execOps : List EngOp → Bool → Except String Bool
  | [], st => .ok st
  | op :: rest, st =>
    match op with
    | .openSet _ => if st then .error "backup set already open" else execOps rest true
    | .closeSet => execOps rest false
    | _ => execOps rest st

/-! ## Restore (`Engine::restore`, engine/engine.rs lines 209-241;
`DefaultEngine::restore_node`, engine/mod.rs lines 347-403) and the two
stores' `retrieve`. -/

/-- The engine error variants reachable from restore, from
`DefaultEngineError` (engine/error.rs). `other` is `Other`; `ioError` stands
for a propagated `std::io::Error` boxed inside the `Box<StdError>` result. -/
inductive EngErr where
  | other (msg : String)
  | generalWithNode (msg : String) (n : Node)
  | ioError (msg : String)
deriving DecidableEq, Repr

/-- `LocalStorage::retrieve` (storage/local_storage.rs lines 158-166): open
the blob file at the sharded path and return `Ok(Some(stream))`; when the
file does not exist, `File::open` fails and the `?` propagates the raw I/O
error, so `Ok(None)` is never produced. The store is modelled as the list of
`(hash, bytes)` blobs present on disk. -/
def LocalStorage.retrieve (store : List (List Nat × List Nat)) (h : List Nat) :
    Except EngErr (Option (List Nat)) :=
  match store.find? (fun b => b.1 == h) with
  | some b => .ok (some b.2)
  | Option.none => .error (.ioError "No such file or directory")

/-- `S3Storage::retrieve` (storage/s3_storage.rs lines 409-412): ignores the
hash and returns `Ok(Some(Cursor::new(vec![])))` — an empty byte stream —
unconditionally. -/
def S3Storage.retrieve (_h : List Nat) : Except EngErr (Option (List Nat)) :=
  .ok (some [])

/-- `DefaultEngine::restore_node`. `retrieve` is the store capability,
`list` the index list capability; the result is the list of
`(path, content)` files written into the target (directory creation and the
always-succeeding local file writes are not tracked). A missing hash on a
file node panics in Rust (`expect`), modelled as an `other` error. `fuel`
bounds the directory recursion; every theorem below supplies enough. -/
def restoreNode (retrieve : List Nat → Except EngErr (Option (List Nat)))
    (list : String → Option Int → List Node) :
    Nat → Node → String → Option Int → String → Except EngErr (List (String × List Nat))
  | 0, _, _, _, _ => .error (.other "recursion limit")
  | Nat.succ fuel, node, nodeBase, fromTs, target =>
    let off := if nodeBase == "" then 0 else nodeBase.length + 1
    let restorePath := target ++ "/" ++ (node.path.drop off)
    if node.isDir then
      (list node.path fromTs).foldlM
        (fun acc child =>
          match restoreNode retrieve list fuel child nodeBase fromTs target with
          | .ok files => .ok (acc ++ files)
          | .error e => .error e)
        []
    else if node.isFile then
      match node.hash with
      | Option.none => .error (.other "File must have hash")
      | some h =>
        match retrieve h with
        | .error e => .error e
        | .ok Option.none =>
          .error (.generalWithNode
            ("Unable to restore " ++ node.path ++ ", hash is missing from storage") node)
        | .ok (some bytes) => .ok [(restorePath, bytes)]
    else .ok []

/-- `Engine::restore`: an empty key restores every root child; a non-empty
key is looked up with `index.get(key, from)`, a miss yields
`Other("Not Found: …")` (the message carries the key; there is no dedicated
NotFound variant), and a hit is restored under the parent of the key. -/
def Engine.restore (get : String → Option Int → Option Node)
    (list : String → Option Int → List Node)
    (retrieve : List Nat → Except EngErr (Option (List Nat)))
    (fuel : Nat) (key : String) (fromTs : Option Int) (target : String) :
    Except EngErr (List (String × List Nat)) :=
  if key == "" then
    (list "" fromTs).foldlM
      (fun acc n =>
        match restoreNode retrieve list fuel n "" fromTs target with
        | .ok files => .ok (acc ++ files)
        | .error e => .error e)
      []
  else
    match get key fromTs with
    | Option.none => .error (.other ("Not Found: " ++ key))
    | some node =>
      match parentString key with
      | Option.none => .error (.other "restore.parent")
      | some par => restoreNode retrieve list fuel node par fromTs target

/-! ## Concrete inputs used by counterexamples and witnesses. -/

/-- A 32-byte hash value. -/
def h32 : List Nat := List.range 32

/-- An existing dir revision of key "a" (mtime 10). -/
def exDirA : Node :=
  { path := "a", kind := .dir, mtime := 10, size := 0, mode := 493,
    deleted := false, hash := Option.none, backupSet := some 1 }

/-- The key "a" now on disk as an empty file with the same mtime 10. -/
def curFileA : Node := Node.newFile "a" 10 0 420

/-- A deleted Dir node with non-zero mode. -/
def deletedDirNode : Node :=
  { path := "a", kind := .dir, mtime := 10, size := 0, mode := 7,
    deleted := true, hash := Option.none, backupSet := some 1 }

/-- An empty database (SQLite rowids start at 1). -/
def emptyDb : SqlDb :=
  { paths := [], nodes := [], backupSets := [], nextPathId := 1,
    nextNodeId := 1, nextBackupSetId := 1 }

/-! ## C1 -/

/-- Claim C1, counterexample. The index holds a Dir revision of "a" and the
disk now holds an empty File "a" whose mtime equals the Dir revision's: the
decision matrix of the claim says "kind change → queue update", but the
size/mtime equality short-circuit in `process_change` is not restricted to
file/file pairs, so the change is skipped and nothing is queued. -/
theorem processChange_kind_change_skipped :
    processChangeFull [] "/base" "/base/a" Option.none 99 2
      (some exDirA) (some curFileA) = PCAction.none ∧
    ∀ m : Node, PCAction.none ≠ PCAction.enqueueFile m := by
  constructor
  · decide
  · intro m h
    cases h

/-- Claim C1 (amended): when the change path is not excluded, the action of
`process_change` is: nothing when the key is absent both on disk and in the
index; a tombstone insert of the existing node tagged with the open backup
set when the key left the disk; nothing when a configured `max_file_size` is
exceeded; nothing when index and disk agree on Dir; nothing when (not both
dirs and) size and mtime are unchanged — whatever the kinds; otherwise
`queue_for_send` of the new node tagged with the set, which enqueues files
and inserts dirs directly. -/
theorem processChange_decision_matrix
    (excludes : List String) (basePath changePath : String)
    (maxFileSize : Option Nat) (now : Int) (bs : Nat)
    (existing current : Option Node)
    (hex : isExcluded excludes changePath basePath = false) :
    (current = Option.none → existing = Option.none →
      processChangeFull excludes basePath changePath maxFileSize now bs existing current =
        PCAction.none) ∧
    (∀ e, current = Option.none → existing = some e →
      processChangeFull excludes basePath changePath maxFileSize now bs existing current =
        PCAction.insertNode ((e.asDeleted now).withBackupSet bs) ∧
      ((e.asDeleted now).withBackupSet bs).deleted = true ∧
      ((e.asDeleted now).withBackupSet bs).path = e.path ∧
      ((e.asDeleted now).withBackupSet bs).kind = e.kind ∧
      ((e.asDeleted now).withBackupSet bs).backupSet = some bs ∧
      ((e.asDeleted now).withBackupSet bs).hash = Option.none) ∧
    (∀ n m, current = some n → maxFileSize = some m → n.size > m →
      processChangeFull excludes basePath changePath maxFileSize now bs existing current =
        PCAction.none) ∧
    (∀ n e, current = some n → existing = some e →
      (∀ m, maxFileSize = some m → n.size ≤ m) →
      e.isDir = true → n.isDir = true →
      processChangeFull excludes basePath changePath maxFileSize now bs existing current =
        PCAction.none) ∧
    (∀ n e, current = some n → existing = some e →
      (∀ m, maxFileSize = some m → n.size ≤ m) →
      ¬(e.isDir = true ∧ n.isDir = true) →
      n.size = e.size → n.mtime = e.mtime →
      processChangeFull excludes basePath changePath maxFileSize now bs existing current =
        PCAction.none) ∧
    (∀ n, current = some n → existing = Option.none →
      (∀ m, maxFileSize = some m → n.size ≤ m) →
      processChangeFull excludes basePath changePath maxFileSize now bs existing current =
        queueForSend (n.withBackupSet bs)) ∧
    (∀ n e, current = some n → existing = some e →
      (∀ m, maxFileSize = some m → n.size ≤ m) →
      ¬(e.isDir = true ∧ n.isDir = true) →
      ¬(n.size = e.size ∧ n.mtime = e.mtime) →
      processChangeFull excludes basePath changePath maxFileSize now bs existing current =
        queueForSend (n.withBackupSet bs)) ∧
    (∀ n : Node, n.isFile = true →
      queueForSend n = PCAction.enqueueFile n) ∧
    (∀ n : Node, n.isDir = true →
      queueForSend n = PCAction.insertNode n) := by
  have hsz : ∀ n : Node, (∀ m, maxFileSize = some m → n.size ≤ m) →
      (match maxFileSize with
       | some m => decide (n.size > m)
       | Option.none => false) = false := by
    intro n hle
    cases hmf : maxFileSize with
    | none => rfl
    | some m => simpa using hle m hmf
  refine ⟨?_, ?_, ?_, ?_, ?_, ?_, ?_, ?_, ?_⟩
  · intro hc he
    simp [processChangeFull, hex, processChange, hc, he]
  · intro e hc he
    refine ⟨?_, rfl, rfl, rfl, rfl, rfl⟩
    simp [processChangeFull, hex, processChange, hc, he]
  · intro n m hc hm hgt
    simp [processChangeFull, hex, processChange, hc, hm, hgt]
  · intro n e hc he hle hd1 hd2
    simp [processChangeFull, hex, processChange, hc, he, hsz n hle, hd1, hd2]
  · intro n e hc he hle hnd hs hm
    simp [processChangeFull, hex, processChange, hc, he, hsz n hle, hs, hm]
  · intro n hc he hle
    simp [processChangeFull, hex, processChange, hc, he, hsz n hle]
  · intro n e hc he hle hnd hne
    by_cases hed : e.isDir = true
    · have hndr : n.isDir = false := by
        cases hnd2 : n.isDir with
        | true => exact absurd ⟨hed, hnd2⟩ hnd
        | false => rfl
      by_cases hs : n.size = e.size ∧ n.mtime = e.mtime
      · exact absurd hs hne
      · simp [processChangeFull, hex, processChange, hc, he, hsz n hle, hed, hndr]
        intro hs hm
        exact absurd ⟨hs, hm⟩ hne
    · have hedf : e.isDir = false := by
        cases h : e.isDir with
        | true => exact absurd h hed
        | false => rfl
      simp [processChangeFull, hex, processChange, hc, he, hsz n hle, hedf]
      intro hs hm
      exact absurd ⟨hs, hm⟩ hne
  · intro n hf
    simp [queueForSend, hf]
  · intro n hd
    have hf : n.isFile = false := by
      simp [Node.isFile, Node.isDir] at hd ⊢
      simp [hd]
    simp [queueForSend, hf]

/-- Witness for the amended C1 theorem: a new on-disk file with no existing
revision and no configured size limit is queued for upload. -/
theorem processChange_decision_matrix_witness :
    processChangeFull [] "/base" "/base/b" Option.none 0 1
      Option.none (some curFileA) = PCAction.enqueueFile (curFileA.withBackupSet 1) := by
  have h := (processChange_decision_matrix [] "/base" "/base/b" Option.none 0 1
    Option.none (some curFileA) (by decide)).2.2.2.2.2.1 curFileA rfl rfl
    (fun m hm => by cases hm)
  rw [h]
  decide

/-! ## C8 -/

/-- Claim C8, counterexample: a deleted Dir node with mode 7 passes
`Node::validate` and is persisted by `persist` without error, although the
claimed invariant `deleted ⇒ mode = 0` fails for it; the mode check of
`validate` only covers File nodes. -/
theorem validate_deleted_dir_counterexample :
    deletedDirNode.validate = true ∧
    deletedDirNode.deleted = true ∧
    deletedDirNode.mode ≠ 0 ∧
    (persist (fun _ => false) emptyDb deletedDirNode).2 = Option.none ∧
    (persist (fun _ => false) emptyDb deletedDirNode).1.nodes.length = 1 := by
  decide

/-- Claim C8 (amended): `Node::validate` (called by `persist` on every node
written to the index, panicking on violation) enforces exactly: hash present
iff (File and not deleted); every present hash has length 32; size = 0 for
Dir; mode = 0 for deleted File nodes (deleted Dir nodes may carry any mode);
and `backup_set` present. -/
theorem validate_characterization (n : Node) :
    n.validate = true ↔
      ((n.hash.isSome = true ↔ (n.kind = NodeKind.file ∧ n.deleted = false)) ∧
       (∀ h, n.hash = some h → h.length = 32) ∧
       (n.kind = NodeKind.dir → n.size = 0) ∧
       (n.kind = NodeKind.file → n.deleted = true → n.mode = 0) ∧
       n.backupSet.isSome = true) := by
  obtain ⟨p, k, mt, sz, md, dl, hs, bs⟩ := n
  cases k <;> cases dl <;> cases hs <;> simp [Node.validate]

/-! ## C9 -/

/-- Claim C9 (confirmed): `create_backup_set` while a set is open reaches
`BackupSetController::open`, which detects the open set and panics
("backup set already open") instead of opening a second staging buffer; the
controller still holds the first set. -/
theorem createBackupSet_fails_when_open
    (st : IndexState) (ts : Int) (b : BackupSet)
    (hc : st.controller = some b) :
    (createBackupSet st ts).2 = Except.error "backup set already open" ∧
    (createBackupSet st ts).1.controller = some b := by
  simp [createBackupSet, hc]

/-- Witness for C9 at a concrete state with backup set 1 open. -/
theorem createBackupSet_fails_when_open_witness :
    (createBackupSet { db := emptyDb, controller := some { index := 1, inMemory := [] } } 900).2 =
      Except.error "backup set already open" ∧
    (createBackupSet { db := emptyDb, controller := some { index := 1, inMemory := [] } } 900).1.controller =
      some { index := 1, inMemory := [] } :=
  createBackupSet_fails_when_open _ 900 _ rfl

/-! ## C3 -/

/-- Claim C3, failing run: an initial scan over one entry followed by one
period tick carrying one drained change. The run loop never emits a
`close_backup_set` operation, so the tick's `create_backup_set` finds the
initial pass's set still open and `BackupSetController::open` panics with
"backup set already open". -/
theorem run_loop_never_closes_backup_set :
    execOps (engineRunOps 0 ["a"] [(900, ["b"])]) false =
      Except.error "backup set already open" ∧
    EngOp.closeSet ∉ engineRunOps 0 ["a"] [(900, ["b"])] ∧
    (∀ now : Int, ∀ scanEntries : List String, ∀ ticks : List (Int × List String),
      EngOp.closeSet ∉ engineRunOps now scanEntries ticks) := by
  have haux : ∀ (ts : Int) (cs : List String), EngOp.closeSet ∉ tickOps ts cs := by
    intro ts cs h
    by_cases hc : cs.length > 0
    · simp [tickOps, waitForQueueDrainOps, hc] at h
    · simp [tickOps, waitForQueueDrainOps, hc] at h
  refine ⟨rfl, haux 900 ["b"] ∘ ?_, ?_⟩
  · intro h
    rw [engineRunOps] at h
    rcases List.mem_append.1 h with h1 | h2
    · rcases List.mem_cons.1 h1 with h3 | h4
      · exact EngOp.noConfusion h3
      · simp [scanOps, waitForQueueDrainOps] at h4
    · obtain ⟨tk, htk, h5⟩ := List.mem_flatMap.1 h2
      simp at htk
      subst htk
      exact h5
  · intro now scanEntries ticks h
    rw [engineRunOps] at h
    rcases List.mem_append.1 h with h1 | h2
    · rcases List.mem_cons.1 h1 with h3 | h4
      · exact EngOp.noConfusion h3
      · simp [scanOps, waitForQueueDrainOps] at h4
    · obtain ⟨tk, -, h5⟩ := List.mem_flatMap.1 h2
      exact haux tk.1 tk.2 h5

/-! ## C4 -/

/-- Revision of child "a" of the root, in backup set 1 (`at = 600`). -/
def c4Row1 : NodeRow :=
  { id := 1, backupSetId := 1, parentId := 1, pathId := 2, kind := .file,
    mtime := 10, size := some 1024, mode := 420, deleted := false, hash := some h32 }

/-- A later revision of the same child "a", in backup set 2 (`at = 1200`). -/
def c4Row2 : NodeRow :=
  { id := 2, backupSetId := 2, parentId := 1, pathId := 2, kind := .file,
    mtime := 11, size := some 1025, mode := 420, deleted := false, hash := some h32 }

/-- A database with one child "a" of the root holding two revisions across
backup sets at 600 and 1200. -/
def db4 : SqlDb :=
  { paths := [(1, ""), (2, "a")], nodes := [c4Row1, c4Row2],
    backupSets := [(1, 600), (2, 1200)], nextPathId := 3, nextNodeId := 3,
    nextBackupSetId := 3 }

/-- Claim C4, failing input: the child "a" of the root has a revision in a
set with `at = 600 ≤ 700` (which `get("a", 700)` finds), yet
`list("", 700)` returns no row at all for it, because the correlated
`backup_set.at <= ?` in the subquery of `LIST_FROM_QUERY_SQL` filters
candidate outer rows instead of the grouped revisions: the child's
unfiltered-latest revision lives in the set at 1200 and is rejected, and no
other row is a group maximum. -/
theorem listFrom_drops_time_filtered_child :
    SqlLightIndex.listFrom db4 "" 700 = [] ∧
    SqlLightIndex.get db4 "a" (some 700) = some c4Row1 ∧
    parentStrOf db4 c4Row1 = some "" ∧
    setAtOf db4 c4Row1 = some 600 := by
  decide

/-! ## C6 -/

/-- Claim C6 (confirmed): popping a queue with front value `x` increments
`in_progress` and hands out an item holding `x` with the success flag clear;
dropping that item after `success()` decrements `in_progress` and removes
the value for good; dropping it without `success()` decrements `in_progress`
and re-enqueues the value at the back, so the value is not lost; and `len`
(in-progress plus queue length) is preserved by pop and by the no-success
drop. -/
theorem queue_item_lifecycle (T : Type) (s : QueueState T) (x : T) (rest : List T)
    (hq : s.q = x :: rest) :
    Queue.pop s =
      some ({ t := some x, success := false },
            { q := rest, inProgress := s.inProgress + 1 }) ∧
    QueueItem.dropItem (QueueItem.markSuccess { t := some x, success := false }).2
        { q := rest, inProgress := s.inProgress + 1 } =
      { q := rest, inProgress := s.inProgress } ∧
    QueueItem.dropItem { t := some x, success := false }
        { q := rest, inProgress := s.inProgress + 1 } =
      { q := rest ++ [x], inProgress := s.inProgress } ∧
    Queue.len { q := rest, inProgress := s.inProgress + 1 } = Queue.len s ∧
    Queue.len (QueueItem.dropItem { t := some x, success := false }
        { q := rest, inProgress := s.inProgress + 1 }) = Queue.len s := by
  obtain ⟨q, ip⟩ := s
  simp only at hq
  subst hq
  refine ⟨rfl, ?_, ?_, ?_, ?_⟩
  · simp [QueueItem.markSuccess, QueueItem.dropItem]
  · simp [QueueItem.dropItem]
  · simp [Queue.len]
    omega
  · simp [QueueItem.dropItem, Queue.len]

/-- Witness for C6 on the one-element queue `[5]` with nothing in
progress. -/
theorem queue_item_lifecycle_witness :
    Queue.pop ({ q := [5], inProgress := 0 } : QueueState Nat) =
      some ({ t := some 5, success := false }, { q := [], inProgress := 1 }) ∧
    QueueItem.dropItem (QueueItem.markSuccess { t := some 5, success := false }).2
        { q := [], inProgress := 1 } = ({ q := [], inProgress := 0 } : QueueState Nat) ∧
    QueueItem.dropItem { t := some 5, success := false }
        { q := [], inProgress := 1 } = ({ q := [5], inProgress := 0 } : QueueState Nat) ∧
    Queue.len ({ q := [], inProgress := 1 } : QueueState Nat) =
      Queue.len ({ q := [5], inProgress := 0 } : QueueState Nat) ∧
    Queue.len (QueueItem.dropItem { t := some 5, success := false }
        { q := [], inProgress := 1 }) =
      Queue.len ({ q := [5], inProgress := 0 } : QueueState Nat) :=
  queue_item_lifecycle Nat { q := [5], inProgress := 0 } 5 [] rfl

/-! ## C5 -/

theorem maxIdRow_cons_none {r : NodeRow} {rs : List NodeRow}
    (h : maxIdRow rs = Option.none) : maxIdRow (r :: rs) = some r := by
  simp [maxIdRow, h]

theorem maxIdRow_cons_some {r m : NodeRow} {rs : List NodeRow}
    (h : maxIdRow rs = some m) :
    maxIdRow (r :: rs) = if m.id < r.id then some r else some m := by
  simp [maxIdRow, h]

theorem maxIdRow_eq_none_iff (l : List NodeRow) : maxIdRow l = Option.none ↔ l = [] := by
  cases l with
  | nil => simp [maxIdRow]
  | cons r rs =>
    cases hm : maxIdRow rs with
    | none => rw [maxIdRow_cons_none hm]; simp
    | some m =>
      rw [maxIdRow_cons_some hm]
      by_cases hlt : m.id < r.id <;> simp [hlt]

theorem maxIdRow_mem : ∀ {l : List NodeRow} {r : NodeRow}, maxIdRow l = some r → r ∈ l := by
  intro l
  induction l with
  | nil => intro r h; cases h
  | cons x xs ih =>
    intro r h
    cases hm : maxIdRow xs with
    | none =>
      rw [maxIdRow_cons_none hm] at h
      injection h with h
      subst h
      exact List.mem_cons_self _ _
    | some m =>
      rw [maxIdRow_cons_some hm] at h
      by_cases hlt : m.id < x.id
      · rw [if_pos hlt] at h
        injection h with h
        subst h
        exact List.mem_cons_self _ _
      · rw [if_neg hlt] at h
        injection h with h
        subst h
        exact List.mem_cons_of_mem _ (ih hm)

theorem maxIdRow_ge : ∀ {l : List NodeRow} {r : NodeRow}, maxIdRow l = some r →
    ∀ x ∈ l, x.id ≤ r.id := by
  intro l
  induction l with
  | nil => intro r h; cases h
  | cons y ys ih =>
    intro r h x hx
    cases hm : maxIdRow ys with
    | none =>
      rw [maxIdRow_cons_none hm] at h
      injection h with h
      subst h
      have hys : ys = [] := (maxIdRow_eq_none_iff ys).1 hm
      subst hys
      have hxy : x = y := List.mem_singleton.1 hx
      subst hxy
      exact le_refl _
    | some m =>
      rw [maxIdRow_cons_some hm] at h
      rcases List.mem_cons.1 hx with h1 | h1
      · by_cases hlt : m.id < y.id
        · rw [if_pos hlt] at h; injection h with h; subst h; subst h1; exact le_refl _
        · rw [if_neg hlt] at h; injection h with h; subst h; subst h1; omega
      · have hxm := ih hm x h1
        by_cases hlt : m.id < y.id
        · rw [if_pos hlt] at h; injection h with h; subst h; omega
        · rw [if_neg hlt] at h; injection h with h; subst h; exact hxm

theorem maxIdRow_eq_of_max (l : List NodeRow) (r : NodeRow)
    (hnd : (l.map (fun x => x.id)).Nodup)
    (hr : r ∈ l) (hmax : ∀ x ∈ l, x.id ≤ r.id) : maxIdRow l = some r := by
  cases hm : maxIdRow l with
  | none =>
    rw [maxIdRow_eq_none_iff] at hm
    subst hm
    cases hr
  | some m =>
    have hmem := maxIdRow_mem hm
    have h1 : m.id ≤ r.id := hmax m hmem
    have h2 : r.id ≤ m.id := maxIdRow_ge hm r hr
    have : m.id = r.id := le_antisymm h1 h2
    have heq : m = r := List.inj_on_of_nodup_map hnd hmem hr this
    rw [heq]

/-- The ids of a filtered node table are still distinct. -/
theorem nodup_filter_ids (db : SqlDb) (pred : NodeRow → Bool)
    (hids : (db.nodes.map (fun r => r.id)).Nodup) :
    ((db.nodes.filter pred).map (fun r => r.id)).Nodup :=
  List.Nodup.sublist (List.Sublist.map _ (List.filter_sublist _)) hids

/-- Claim C5 (confirmed): provided node ids are distinct (they are the
INTEGER PRIMARY KEY), `get(p, None)` returns exactly the matching revision
with the largest id (`None` iff there is none), and `get(p, Some t)` returns
exactly the matching revision with the largest id among those whose owning
backup set has `at ≤ t` (`None` iff there is none). `latestRows`/`fromRows`
are the rows matched by the two SQL queries before `ORDER BY id DESC
LIMIT 1`. -/
theorem index_get_returns_max_id (db : SqlDb) (p : String) (t : Int)
    (hids : (db.nodes.map (fun r => r.id)).Nodup) :
    ((SqlLightIndex.get db p Option.none = Option.none ↔ latestRows db p = []) ∧
     (∀ r, SqlLightIndex.get db p Option.none = some r →
        r ∈ latestRows db p ∧ ∀ x ∈ latestRows db p, x.id ≤ r.id) ∧
     (∀ r, r ∈ latestRows db p → (∀ x ∈ latestRows db p, x.id ≤ r.id) →
        SqlLightIndex.get db p Option.none = some r)) ∧
    ((SqlLightIndex.get db p (some t) = Option.none ↔ fromRows db p t = []) ∧
     (∀ r, SqlLightIndex.get db p (some t) = some r →
        r ∈ fromRows db p t ∧ ∀ x ∈ fromRows db p t, x.id ≤ r.id) ∧
     (∀ r, r ∈ fromRows db p t → (∀ x ∈ fromRows db p t, x.id ≤ r.id) →
        SqlLightIndex.get db p (some t) = some r)) := by
  refine ⟨⟨maxIdRow_eq_none_iff _, ?_, ?_⟩, ⟨maxIdRow_eq_none_iff _, ?_, ?_⟩⟩
  · intro r h
    exact ⟨maxIdRow_mem h, maxIdRow_ge h⟩
  · intro r hr hmax
    exact maxIdRow_eq_of_max _ r (nodup_filter_ids db _ hids) hr hmax
  · intro r h
    exact ⟨maxIdRow_mem h, maxIdRow_ge h⟩
  · intro r hr hmax
    exact maxIdRow_eq_of_max _ r (nodup_filter_ids db _ hids) hr hmax

/-- Witness for C5 on `db4`: at `t = 700` the child "a" resolves to its
backup-set-1 revision. -/
theorem index_get_returns_max_id_witness :
    SqlLightIndex.get db4 "a" (some 700) = some c4Row1 :=
  (index_get_returns_max_id db4 "a" 700 (by decide)).2.2.2 c4Row1 (by decide) (by decide)

/-! ## C2 -/

/-- `Node::with_hash` (asserts a 32-byte hash in Rust). -/
def Node.withHash (n : Node) (h : List Nat) : Node :=
  { n with hash := some h }

/-- A valid staged file node "a". -/
def c2NodeA : Node := ((Node.newFile "a" 10 3 420).withHash h32).withBackupSet 1

/-- A valid staged file node "b". -/
def c2NodeB : Node := ((Node.newFile "b" 20 4 420).withHash h32).withBackupSet 1

/-- An index state whose open backup set 1 has staged the nodes "a" and
"b". -/
def c2State : IndexState :=
  { db := emptyDb, controller := some { index := 1, inMemory := [c2NodeA, c2NodeB] } }

/-- A node that passes `validate` makes the three redundant file/hash
re-checks at the top of `persist` all pass as well. -/
theorem validate_file_checks (n : Node) (hv : n.validate = true) :
    (n.isFile && !n.hasHash && !n.deleted) = false ∧
    (n.isFile && n.deleted && n.hasHash) = false ∧
    (n.isFile && !n.deleted && (n.hash == some [])) = false := by
  obtain ⟨p, k, mt, sz, md, dl, hs, bs⟩ := n
  cases k <;> cases dl <;> cases hs <;>
    simp_all [Node.validate, Node.isFile, Node.hasHash]
  intro h
  subst h
  simp at hv

/-- A non-empty path has a parent. -/
theorem parentString_of_ne_empty (s : String) (hp : s ≠ "") :
    parentString s =
      some (String.mk (joinWithSlash ((splitChars '/' s.data).dropLast))) := by
  simp [parentString, hp]

/-- `get_path_id` only touches the `path` table. -/
theorem getPathId_nodes (db : SqlDb) (s : String) : (getPathId db s).2.nodes = db.nodes := by
  unfold getPathId
  cases db.paths.find? (fun pr => pr.2 == s) <;> rfl

/-- A successful `persist` of a valid node appends exactly one node row. -/
theorem persist_ok (fail : Node → Bool) (db : SqlDb) (n : Node)
    (hv : n.validate = true) (hp : n.path ≠ "") (hf : fail n = false) :
    (persist fail db n).1.nodes.length = db.nodes.length + 1 ∧
    (persist fail db n).2 = Option.none := by
  obtain ⟨hc1, hc2, hc3⟩ := validate_file_checks n hv
  rw [persist]
  simp only [hv, hc1, hc2, hc3, parentString_of_ne_empty n.path hp, hf,
    Bool.not_true, Bool.false_eq_true, if_false]
  simp [getPathId_nodes]

/-- A `persist` whose node insert fails leaves the node table unchanged and
returns the insert error. -/
theorem persist_fail (fail : Node → Bool) (db : SqlDb) (n : Node)
    (hv : n.validate = true) (hp : n.path ≠ "") (hf : fail n = true) :
    (persist fail db n).1.nodes = db.nodes ∧
    (persist fail db n).2 = some "Insert node query failed" := by
  obtain ⟨hc1, hc2, hc3⟩ := validate_file_checks n hv
  rw [persist]
  simp only [hv, hc1, hc2, hc3, parentString_of_ne_empty n.path hp, hf,
    Bool.not_true, Bool.false_eq_true, if_false]
  simp [getPathId_nodes]

/-- Sequential persistence applies exactly the prefix of the staged list
before the first failing insert, and succeeds overall iff no insert
fails. -/
theorem persistList_spec (fail : Node → Bool) :
    ∀ (l : List Node) (db : SqlDb),
    (∀ n ∈ l, n.validate = true ∧ n.path ≠ "") →
    (persistList fail db l).1.nodes.length =
      db.nodes.length + (l.takeWhile (fun n => !fail n)).length ∧
    ((persistList fail db l).2 = Option.none ↔ ∀ n ∈ l, fail n = false) := by
  intro l
  induction l with
  | nil => intro db _; simp [persistList]
  | cons n rest ih =>
    intro db hv
    have hvn := hv n (List.mem_cons_self _ _)
    have hvrest : ∀ m ∈ rest, m.validate = true ∧ m.path ≠ "" :=
      fun m hm => hv m (List.mem_cons_of_mem _ hm)
    cases hf : fail n with
    | false =>
      obtain ⟨hlen, herr⟩ := persist_ok fail db n hvn.1 hvn.2 hf
      rcases hpn : persist fail db n with ⟨db', err⟩
      rw [hpn] at hlen herr
      simp only at hlen herr
      subst herr
      have hrec := ih db' hvrest
      simp only [persistList, hpn]
      constructor
      · rw [hrec.1, hlen, List.takeWhile_cons, hf]
        simp
        omega
      · rw [hrec.2]
        constructor
        · intro hall m hm
          rcases List.mem_cons.1 hm with rfl | hmr
          · exact hf
          · exact hall m hmr
        · intro hall m hm
          exact hall m (List.mem_cons_of_mem _ hm)
    | true =>
      obtain ⟨hnodes, herr⟩ := persist_fail fail db n hvn.1 hvn.2 hf
      rcases hpn : persist fail db n with ⟨db', err⟩
      rw [hpn] at hnodes herr
      simp only at hnodes herr
      subst herr
      simp only [persistList, hpn]
      constructor
      · rw [hnodes, List.takeWhile_cons, hf]
        simp
      · simp only [List.mem_cons]
        constructor
        · intro h; cases h
        · intro hall
          exact absurd (hall n (Or.inl rfl)) (by simp [hf])

/-- Claim C2, counterexample: closing a backup set with two staged nodes
while the database insert of the second fails leaves the index holding
exactly the first node's row — a strict prefix, neither all staged nodes
nor none. -/
theorem closeBackupSet_partial_flush_counterexample :
    (c2State.controller.map (fun b => b.inMemory.length)) = some 2 ∧
    ((closeBackupSet (fun n => n.path == "b") c2State).2).isSome = true ∧
    (closeBackupSet (fun n => n.path == "b") c2State).1.db.nodes.length = 1 ∧
    ((closeBackupSet (fun n => n.path == "b") c2State).1.db.nodes.map
      (fun r => r.mtime)) = [10] := by
  decide

/-- Claim C2 (amended): `close_backup_set` flushes the staged buffer and
persists the staged nodes one by one without a wrapping transaction; on an
insert error it stops, leaving exactly the rows of the prefix of staged
nodes before the first failure applied (and visible to later queries), the
remainder lost with the flushed buffer; it succeeds iff every insert
succeeds. Stated for staged nodes that pass validation and have a
parent. -/
theorem closeBackupSet_applies_prefix (fail : Node → Bool) (st : IndexState)
    (bs : BackupSet) (hc : st.controller = some bs)
    (hv : ∀ n ∈ bs.inMemory, n.validate = true ∧ n.path ≠ "") :
    (closeBackupSet fail st).1.controller = Option.none ∧
    (closeBackupSet fail st).1.db.nodes.length =
      st.db.nodes.length + (bs.inMemory.takeWhile (fun n => !fail n)).length ∧
    ((closeBackupSet fail st).2 = Option.none ↔ ∀ n ∈ bs.inMemory, fail n = false) := by
  have h := persistList_spec fail bs.inMemory st.db hv
  refine ⟨?_, ?_, ?_⟩ <;> simp only [closeBackupSet, hc]
  · exact h.1
  · exact h.2

/-- Witness for the amended C2 theorem at the concrete two-node state with
the second insert failing. -/
theorem closeBackupSet_applies_prefix_witness :
    (closeBackupSet (fun n : Node => n.path == "b") c2State).1.controller = Option.none ∧
    (closeBackupSet (fun n : Node => n.path == "b") c2State).1.db.nodes.length =
      c2State.db.nodes.length +
        (([c2NodeA, c2NodeB] : List Node).takeWhile (fun n => !(n.path == "b"))).length ∧
    ((closeBackupSet (fun n : Node => n.path == "b") c2State).2 = Option.none ↔
      ∀ n ∈ ([c2NodeA, c2NodeB] : List Node), (n.path == "b") = false) :=
  closeBackupSet_applies_prefix (fun n => n.path == "b") c2State
    { index := 1, inMemory := [c2NodeA, c2NodeB] } rfl (by decide)

/-! ## C7 -/

/-- A file revision of key "a" whose blob will be missing from the store. -/
def c7FileNode : Node := ((Node.newFile "a" 10 3 420).withHash h32).withBackupSet 1

/-- An index `get` capability resolving only the key "a". -/
def c7Get : String → Option Int → Option Node :=
  fun k _ => if k == "a" then some c7FileNode else Option.none

/-- An index `list` capability with no children anywhere. -/
def c7List : String → Option Int → List Node := fun _ _ => []

/-- Claim C7, counterexample: restoring file "a" whose blob is absent from
the local store. `LocalStorage::retrieve` fails with the raw I/O error of
`File::open` (it never returns `Ok(None)`), and `restore_node` propagates
that error unchanged through `?`, so the failure does not surface as
`GeneralWithNode`. -/
theorem restore_missing_local_blob_counterexample :
    Engine.restore c7Get c7List (LocalStorage.retrieve []) 2 "a" Option.none "t" =
      Except.error (EngErr.ioError "No such file or directory") ∧
    ∀ (msg : String) (nd : Node),
      Engine.restore c7Get c7List (LocalStorage.retrieve []) 2 "a" Option.none "t" ≠
        Except.error (EngErr.generalWithNode msg nd) := by
  have heq : Engine.restore c7Get c7List (LocalStorage.retrieve []) 2 "a" Option.none "t" =
      Except.error (EngErr.ioError "No such file or directory") := by rfl
  refine ⟨heq, ?_⟩
  intro msg nd h
  rw [heq] at h
  simp at h

/-- Claim C7 (amended): for a non-empty key, restore returns the `Other`
error carrying the message "Not Found: <key>" exactly when the key/timestamp
has no matching revision (there is no dedicated NotFound variant); for a
matching file node, an error from the store's `retrieve` — which is what the
local store produces for a missing blob — propagates unchanged, a `retrieve`
of `Ok(None)` yields `GeneralWithNode` carrying the node, and a successful
retrieve writes the blob's bytes. -/
theorem restore_error_kinds
    (get : String → Option Int → Option Node)
    (list : String → Option Int → List Node)
    (retrieve : List Nat → Except EngErr (Option (List Nat)))
    (fuel : Nat) (key target : String) (fromTs : Option Int)
    (hk : key ≠ "") :
    (get key fromTs = Option.none →
      Engine.restore get list retrieve (fuel + 1) key fromTs target =
        Except.error (EngErr.other ("Not Found: " ++ key))) ∧
    (∀ node h, get key fromTs = some node → node.kind = NodeKind.file →
      node.hash = some h →
      (∀ e, retrieve h = Except.error e →
        Engine.restore get list retrieve (fuel + 1) key fromTs target =
          Except.error e) ∧
      (retrieve h = Except.ok Option.none →
        Engine.restore get list retrieve (fuel + 1) key fromTs target =
          Except.error (EngErr.generalWithNode
            ("Unable to restore " ++ node.path ++ ", hash is missing from storage")
            node)) ∧
      (∀ bytes, retrieve h = Except.ok (some bytes) →
        ∃ p, Engine.restore get list retrieve (fuel + 1) key fromTs target =
          Except.ok [(p, bytes)])) := by
  have hkb : (key == "") = false := by
    simp [hk]
  have hpar := parentString_of_ne_empty key hk
  constructor
  · intro hg
    simp [Engine.restore, hkb, hg]
  · intro node h hg hkind hh
    have hdir : node.isDir = false := by simp [Node.isDir, hkind]
    have hfile : node.isFile = true := by simp [Node.isFile, hkind]
    refine ⟨?_, ?_, ?_⟩
    · intro e he
      simp [Engine.restore, hkb, hg, hpar, restoreNode, hdir, hfile, hh, he]
    · intro he
      simp [Engine.restore, hkb, hg, hpar, restoreNode, hdir, hfile, hh, he]
    · intro bytes hb
      refine ⟨target ++ "/" ++ node.path.drop
        (if String.mk (joinWithSlash ((splitChars '/' key.data).dropLast)) == "" then 0
         else (String.mk (joinWithSlash ((splitChars '/' key.data).dropLast))).length + 1), ?_⟩
      simp [Engine.restore, hkb, hg, hpar, restoreNode, hdir, hfile, hh, hb]

/-- Witness for the amended C7 theorem: an index with no revisions turns a
restore of the key "k" into the Not Found error. -/
theorem restore_error_kinds_witness :
    Engine.restore (fun _ _ => Option.none) (fun _ _ => []) (LocalStorage.retrieve [])
      (0 + 1) "k" Option.none "t" =
      Except.error (EngErr.other ("Not Found: " ++ "k")) :=
  (restore_error_kinds (fun _ _ => Option.none) (fun _ _ => [])
    (LocalStorage.retrieve []) 0 "k" "t" Option.none (by decide)).1 rfl

/-! ## C10 -/

/-- A file revision restored from the remote store. -/
def c10Node : Node := ((Node.newFile "f" 5 9 420).withHash h32).withBackupSet 1

/-- Claim C10 (confirmed): the remote S3 store's `retrieve` returns
`Ok(Some(empty stream))` for every hash, so restoring any file node through
it writes a zero-byte file at the computed restore path and never produces
the `GeneralWithNode` missing-blob error. -/
theorem s3_retrieve_restores_zero_bytes
    (list : String → Option Int → List Node) (fuel : Nat) (node : Node)
    (nodeBase : String) (fromTs : Option Int) (target : String) (h : List Nat)
    (hkind : node.kind = NodeKind.file) (hh : node.hash = some h) :
    S3Storage.retrieve h = Except.ok (some []) ∧
    restoreNode S3Storage.retrieve list (fuel + 1) node nodeBase fromTs target =
      Except.ok [(target ++ "/" ++ node.path.drop
        (if nodeBase == "" then 0 else nodeBase.length + 1), [])] ∧
    ∀ (msg : String) (nd : Node),
      restoreNode S3Storage.retrieve list (fuel + 1) node nodeBase fromTs target ≠
        Except.error (EngErr.generalWithNode msg nd) := by
  have hdir : node.isDir = false := by simp [Node.isDir, hkind]
  have hfile : node.isFile = true := by simp [Node.isFile, hkind]
  have heq : restoreNode S3Storage.retrieve list (fuel + 1) node nodeBase fromTs target =
      Except.ok [(target ++ "/" ++ node.path.drop
        (if nodeBase == "" then 0 else nodeBase.length + 1), [])] := by
    simp [restoreNode, hdir, hfile, hh, S3Storage.retrieve]
  refine ⟨rfl, heq, ?_⟩
  intro msg nd hcon
  rw [heq] at hcon
  simp at hcon

/-- Witness for C10: restoring the concrete file node "f" from the remote
store writes the zero-byte file "t/f". -/
theorem s3_retrieve_restores_zero_bytes_witness :
    S3Storage.retrieve h32 = Except.ok (some []) ∧
    restoreNode S3Storage.retrieve (fun _ _ => []) (0 + 1) c10Node "" Option.none "t" =
      Except.ok [("t" ++ "/" ++ c10Node.path.drop
        (if ("" : String) == "" then 0 else ("" : String).length + 1), [])] ∧
    ∀ (msg : String) (nd : Node),
      restoreNode S3Storage.retrieve (fun _ _ => []) (0 + 1) c10Node "" Option.none "t" ≠
        Except.error (EngErr.generalWithNode msg nd) :=
  s3_retrieve_restores_zero_bytes (fun _ _ => []) 0 c10Node "" Option.none "t" h32
    rfl rfl

end Haumaru
